import Mathlib

/-!
# Aether-Red core: shallow embedding and verification

A shallow embedding of the request-generation pipeline of the Aether-Red
engine (crates `aether_core`, `aether_net`, `aether_traits`, module
`mod_fuzz`), together with theorems settling the frozen claims about it.

Byte strings are modelled as `List Nat` (one entry per byte / Unicode
scalar value); machine counters are modelled as `Nat`; fallible Rust code
is modelled with `Except`/`Option`; external effects (the RNG, the gzip
encoder, the peer stream, the channel) are modelled as explicit oracle
parameters.
-/

deriving instance DecidableEq for Except

/-- The bytes of an ASCII string, as `List Nat`. -/
def strBytes (s : String) : List Nat :=
  s.toList.map Char.toNat

/-! ## Shared state counters (`aether_traits::SharedState`, `worker.rs` lines 102-125)

`SharedState` holds `AtomicU64` counters `total_requests`, `total_bytes`,
`error_count`; the worker updates them with `fetch_add(_, Relaxed)`.
Counters are modelled as `Nat` (the u64 wrap point is never approached on
the claimed behaviour, and the spec treats the counters as monotonic). -/

structure SharedCounters where
  total_requests : Nat
  total_bytes : Nat
  error_count : Nat
deriving DecidableEq, Repr

/-- `aether_traits::AttackResult`: `{ status_code: u16, latency_us: u128, size_bytes: usize }`. -/
structure AttackResult where
  status_code : Nat
  latency_us : Nat
  size_bytes : Nat
deriving DecidableEq, Repr

/-- The `match attack_result` arm of `Worker::run` (worker.rs lines 102-125):
on `Ok(metrics)` it performs `total_requests.fetch_add(1)` and
`total_bytes.fetch_add(metrics.size_bytes)`; on `Err(_)` it performs
`error_count.fetch_add(1)`. -/
def recordOutcome (c : SharedCounters) (attack_result : Except Unit AttackResult) :
    SharedCounters :=
  match attack_result with
  | .ok metrics =>
      { c with
        total_requests := c.total_requests + 1
        total_bytes := c.total_bytes + metrics.size_bytes }
  | .error _ =>
      { c with error_count := c.error_count + 1 }

/-! ## Worker telemetry sync (`worker.rs` lines 149-156)

`Worker::sync_telemetry` clones the local histogram, `try_send`s the
snapshot, and only on `Ok` resets the histogram, zeroes
`requests_since_last_sync` and refreshes `last_sync`.  The histogram is
modelled as the list of recorded latency samples (`reset` = `[]`), the
instant as a `Nat` timestamp, and the channel outcome (`flume::try_send`
succeeding, or failing with Full/Disconnected) as a `Bool` oracle. -/

structure WorkerTelemetry where
  histogram : List Nat
  requests_since_last_sync : Nat
  last_sync : Nat
deriving DecidableEq, Repr

/-- `Worker::sync_telemetry`.  Returns the new worker state together with
`some snapshot` if the snapshot was accepted by the channel, `none` if the
`try_send` failed (in which case nothing is sent). -/
def sync_telemetry (w : WorkerTelemetry) (send_ok : Bool) (now : Nat) :
    WorkerTelemetry × Option (List Nat) :=
  let snapshot := w.histogram
  if send_ok then
    ({ histogram := [], requests_since_last_sync := 0, last_sync := now },
      some snapshot)
  else
    (w, none)

/-! ## TLS provider family (`aether_net/src/tls.rs`) -/

/-- `aether_net::tls::AttackProfile`. -/
structure AttackProfile where
  force_http1 : Bool
  force_http10 : Bool
  force_tls11 : Bool
  use_0rtt : Bool
  fragment_handshake : Bool
deriving DecidableEq, Repr

/-- The fields of `rustls::ClientConfig` that `NativeProvider::new`
configures: the ALPN protocol list (each protocol a byte string) and
the early-data flag. -/
structure RustlsClientConfig where
  alpn_protocols : List (List Nat)
  enable_early_data : Bool
deriving DecidableEq, Repr

/-- `NativeProvider`: two preconfigured client configs (tls.rs lines 61-75). -/
structure NativeProvider where
  config_http1 : RustlsClientConfig
  config_http2 : RustlsClientConfig
deriving DecidableEq, Repr

/-- `NativeProvider::new` (tls.rs): `config_http1.alpn_protocols =
vec![b"http/1.1"]`, `config_http2.alpn_protocols = vec![b"h2", b"http/1.1"]`,
early data enabled on both. -/
def NativeProvider.new : NativeProvider :=
  { config_http1 :=
      { alpn_protocols := [strBytes "http/1.1"], enable_early_data := true }
    config_http2 :=
      { alpn_protocols := [strBytes "h2", strBytes "http/1.1"],
        enable_early_data := true } }

/-- `NativeProvider::handshake` (tls.rs lines 86-103), up to the point where
the connector is built: returns `.error` for `force_tls11` (before the
underlying stream is touched), otherwise `.ok cfg` where `cfg` is the client
configuration handed to `RustlsConnector::from` for the actual handshake. -/
def NativeProvider.handshake (p : NativeProvider) (profile : AttackProfile) :
    Except (List Nat) RustlsClientConfig :=
  if profile.force_tls11 then
    .error (strBytes "NativeProvider (rustls) does not support TLS 1.0/1.1. use LegacyProvider.")
  else
    .ok (if profile.force_http1 then p.config_http1 else p.config_http2)

/-! ## Payload fuzzer (`modules/mod_fuzz/src/lib.rs`, `PolyglotFuzzer`)

Payload buffers (`BytesMut`) are modelled as `List Nat` of byte values;
`buffer.clear()` resets the length to 0 (capacity is not part of the
model); every `generate_*` helper appends to the caller's buffer exactly
as the source does.  The thread RNG is modelled by explicit parameters
with the ranges `gen_range` guarantees (`Fin 12` for the strategy,
`Fin 5` for the bad-char index, `Fin 6` for the verb index). -/

/-- `generate_overflow`: `size` copies of `b'A'` appended. -/
def generate_overflow (buffer : List Nat) (size : Nat) : List Nat :=
  buffer ++ List.replicate size 65

/-- `generate_injection`: the literal polyglot payload
`' OR 1=1 -- <script>alert(1)</script> {{7*7}} ` (trailing space included). -/
def generate_injection (buffer : List Nat) : List Nat :=
  buffer ++ strBytes "' OR 1=1 -- <script>alert(1)</script> \x7b\x7b7*7\x7d\x7d "

/-- `generate_json_explosion`: `depth` copies of `{"a":`, then `1`, then
`depth` closing braces. -/
def generate_json_explosion (buffer : List Nat) (depth : Nat) : List Nat :=
  buffer ++ (List.replicate depth (strBytes "\x7b\"a\":")).flatten
    ++ strBytes "1" ++ List.replicate depth 125

/-- `generate_gzip_bomb`: the flate2 `GzEncoder` (best compression) output
for `min(decompressed_size, 2^20)` zero bytes is appended.  The encoder is
external to the repository; its output stream is the oracle parameter `gz`
(the encoder writes into a `Vec`, so `finish()` succeeds and the whole
compressed stream — at least the fixed gzip header — is appended). -/
def generate_gzip_bomb (gz : List Nat) (buffer : List Nat)
    (_decompressed_size : Nat) : List Nat :=
  buffer ++ gz

/-- `generate_oversized_headers`: `Cookie: session=` followed by `size`
copies of `b'X'`. -/
def generate_oversized_headers (buffer : List Nat) (size : Nat) : List Nat :=
  buffer ++ strBytes "Cookie: session=" ++ List.replicate size 88

/-- The characters the `urlencoding` crate leaves unescaped:
ASCII alphanumerics and `-`, `.`, `_`, `~`. -/
def isUrlUnreserved (c : Nat) : Bool :=
  decide ((48 ≤ c ∧ c ≤ 57) ∨ (65 ≤ c ∧ c ≤ 90) ∨ (97 ≤ c ∧ c ≤ 122) ∨
    c = 45 ∨ c = 46 ∨ c = 95 ∨ c = 126)

/-- Upper-case hex digit of a value `< 16` (as used by `urlencoding::encode`). -/
def hexUpperDigit (n : Nat) : Nat :=
  if n < 10 then 48 + n else 55 + n

/-- Model of `urlencoding::encode` on byte strings: unreserved bytes pass
through, every other byte becomes `%XX` with upper-case hex. -/
def urlencode : List Nat → List Nat
  | [] => []
  | c :: rest =>
      (if isUrlUnreserved c then [c]
       else [37, hexUpperDigit (c / 16), hexUpperDigit (c % 16)])
        ++ urlencode rest

/-- `generate_double_encoded`: percent-encoding applied twice to `input`. -/
def generate_double_encoded (buffer : List Nat) (input : List Nat) : List Nat :=
  buffer ++ urlencode (urlencode input)

/-- `generate_bad_char_walk`: append `base`, then replace the byte at
`index` (when in bounds of the buffer) with a random high byte
(`gen_range(128..255)`, modelled by the free parameter `randHigh`). -/
def generate_bad_char_walk (buffer : List Nat) (base : List Nat)
    (index : Nat) (randHigh : Nat) : List Nat :=
  let buffer := buffer ++ base
  if index < buffer.length then buffer.set index randHigh else buffer

/-- The verb table of `generate_verb_manipulation`. -/
def httpVerbs : List (List Nat) :=
  [strBytes "PROPFIND", strBytes "MOVE", strBytes "LOCK",
   strBytes "UNLOCK", strBytes "SEARCH", strBytes "PURGE"]

/-- `generate_verb_manipulation`: a complete request line
`<VERB> / HTTP/1.1\r\nHost: target.internal\r\n\r\n` with the verb picked
by `gen_range(0..verbs.len())`. -/
def generate_verb_manipulation (buffer : List Nat) (verbIdx : Fin 6) : List Nat :=
  buffer ++ httpVerbs.getD verbIdx.val []
    ++ strBytes " / HTTP/1.1\r\nHost: target.internal\r\n\r\n"

/-- `generate_null_byte_abuse`: `admin`, a null byte, `.php`. -/
def generate_null_byte_abuse (buffer : List Nat) : List Nat :=
  buffer ++ strBytes "admin" ++ [0] ++ strBytes ".php"

/-- `generate_handshake_termination`: the four bytes `16 03 01 00`. -/
def generate_handshake_termination (buffer : List Nat) : List Nat :=
  buffer ++ [0x16, 0x03, 0x01, 0x00]

/-- `generate_smuggling_payload`: the CL.TE smuggling request for `host`. -/
def generate_smuggling_payload (buffer : List Nat) (host : List Nat) : List Nat :=
  buffer ++ strBytes "POST / HTTP/1.1\r\n"
    ++ strBytes "Host: " ++ host ++ strBytes "\r\n"
    ++ strBytes "Content-Length: 4\r\n"
    ++ strBytes "Transfer-Encoding: chunked\r\n"
    ++ strBytes "\r\n0\r\n\r\nX"

/-- `PolyglotFuzzer::generate_into` (mod_fuzz lib.rs lines 18-39): clear the
buffer, draw `strategy = gen_range(0..12)`, and append the matching variant
(the `_` arm, reached exactly at index 11, appends `NOOP`). -/
def generate_into (gz : List Nat) (strategy : Fin 12) (badIdx : Fin 5)
    (randHigh : Nat) (verbIdx : Fin 6) (buffer : List Nat)
    (_template : List Nat) : List Nat :=
  let buffer : List Nat := buffer.take 0
  match (strategy : Nat) with
  | 0 => generate_overflow buffer (1024 * 64)
  | 1 => generate_injection buffer
  | 2 => generate_json_explosion buffer 1000
  | 3 => generate_gzip_bomb gz buffer (1024 * 1024)
  | 4 => generate_oversized_headers buffer 8192
  | 5 => generate_double_encoded buffer (strBytes "' OR 1=1 --")
  | 6 => generate_bad_char_walk buffer (strBytes "admin") badIdx.val randHigh
  | 7 => generate_verb_manipulation buffer verbIdx
  | 8 => generate_smuggling_payload buffer (strBytes "target.local")
  | 9 => generate_null_byte_abuse buffer
  | 10 => generate_handshake_termination buffer
  | _ => buffer ++ strBytes "NOOP"

/-! ## Transport builder (`aether_net/src/transport.rs`)

`TransportBuilder::connect_adversarial` is modelled as the sequence of
socket system calls it issues (the trace) together with its `Result`.
Each fallible call carries a `Bool` success oracle (the `?` operator
aborts the function on failure); the `connect` call has three outcomes,
`Ok`, `WouldBlock` (treated by the source as success-in-progress) and any
other error. -/

/-- One socket operation issued by `connect_adversarial`. -/
inductive SockOp where
  | newSocket
  | setLinger (secs : Nat)
  | setNodelay (enabled : Bool)
  | setNonblocking (enabled : Bool)
  | bindLocal
  | connectRemote
deriving DecidableEq, Repr

/-- Outcome of the non-blocking `socket.connect` call. -/
inductive ConnectOutcome where
  | ok
  | wouldBlock
  | otherErr
deriving DecidableEq, Repr

/-- `TransportBuilder::connect_adversarial` (transport.rs lines 29-66):
create the socket; apply `SO_LINGER = 0`, `TCP_NODELAY = on`, non-blocking
mode; bind the optional local address; connect (a `WouldBlock` error is
expected and swallowed); finally switch blocking mode back for the tokio
handoff.  Returns the `Result` and the trace of issued socket calls. -/
def connect_adversarial (hasLocalAddr : Bool)
    (lingerOk nodelayOk nonblockOk bindOk : Bool)
    (connectRes : ConnectOutcome) (postNonblockOk : Bool) :
    Except Unit Unit × List SockOp :=
  let tr := [SockOp.newSocket]
  let tr := tr ++ [SockOp.setLinger 0]
  if lingerOk = false then (.error (), tr) else
  let tr := tr ++ [SockOp.setNodelay true]
  if nodelayOk = false then (.error (), tr) else
  let tr := tr ++ [SockOp.setNonblocking true]
  if nonblockOk = false then (.error (), tr) else
  let tr := tr ++ (if hasLocalAddr then [SockOp.bindLocal] else [])
  if hasLocalAddr = true ∧ bindOk = false then (.error (), tr) else
  let tr := tr ++ [SockOp.connectRemote]
  if connectRes = ConnectOutcome.otherErr then (.error (), tr) else
  let tr := tr ++ [SockOp.setNonblocking false]
  if postNonblockOk = false then (.error (), tr) else
  (.ok (), tr)

/-- Is this operation the `connect` call? -/
def isConnectOp : SockOp → Bool
  | SockOp.connectRemote => true
  | _ => false

/-- Is this operation one of the three adversarial pre-flight options of
the claim (`SO_LINGER = 0`, `TCP_NODELAY = on`, non-blocking mode on)? -/
def isAdversarialOpt : SockOp → Bool
  | SockOp.setLinger 0 => true
  | SockOp.setNodelay true => true
  | SockOp.setNonblocking true => true
  | _ => false

/-! ## Fragmenting stream wrapper (`transport.rs`, `FragmentedStream`)

`FragmentedStream` holds the inner stream, `chunk_size`, and a tokio sleep
timer.  Time is modelled virtually in milliseconds: the timer is the
`timer_deadline` instant, `is_elapsed()` holds iff the current instant is
at or past the deadline, and `tokio::time::sleep(5ms)` armed at `now` sets
the deadline to `now + 5` (`wrap_fragmented` arms a `sleep(0ms)` timer, so
the first write is accepted immediately).  The inner stream's `poll_write`
is an oracle mapping the offered bytes to `Ready(Ok n)`, `Ready(Err)` or
`Pending`. -/

/-- `std::task::Poll`. -/
inductive Poll (α : Type) where
  | Ready (val : α)
  | Pending
deriving DecidableEq, Repr

/-- The fragmenting wrapper's own state (inner stream left to the oracle). -/
structure FragmentedStream where
  chunk_size : Nat
  timer_deadline : Nat
deriving DecidableEq, Repr

/-- `TransportBuilder::wrap_fragmented` (transport.rs lines 77-87): wrap
with the given chunk size and a zero-duration timer armed at `now`. -/
def wrap_fragmented (chunk_size : Nat) (now : Nat) : FragmentedStream :=
  { chunk_size := chunk_size, timer_deadline := now + 0 }

/-- `FragmentedStream::poll_write` (transport.rs lines 105-138): if the
pacing timer has not elapsed, poll it and return `Pending`; otherwise cap
the write at `chunk_size` bytes (a zero cap on a non-empty buffer returns
`Ready(Ok 0)`), forward the capped slice to the inner stream, and on a
successful write of `n > 0` bytes re-arm the 5 ms timer.  Returns the poll
result, the successor state, and the list of writes issued to the inner
stream during this call. -/
def poll_write (s : FragmentedStream) (now : Nat) (buf : List Nat)
    (inner : List Nat → Poll (Except Unit Nat)) :
    Poll (Except Unit Nat) × FragmentedStream × List (List Nat) :=
  if now < s.timer_deadline then
    (Poll.Pending, s, [])
  else
    let max_write := min buf.length s.chunk_size
    if max_write = 0 ∧ buf ≠ [] then
      (Poll.Ready (.ok 0), s, [])
    else
      let write_buf := buf.take max_write
      match inner write_buf with
      | Poll.Ready result =>
          let s' :=
            match result with
            | .ok n => if 0 < n then { s with timer_deadline := now + 5 } else s
            | .error _ => s
          (Poll.Ready result, s', [write_buf])
      | Poll.Pending => (Poll.Pending, s, [write_buf])

/-- `FragmentedStream::poll_read` (transport.rs lines 92-101): delegates to
the inner stream unchanged; the oracle `innerRead` is the inner stream's
poll result. -/
def poll_read (_s : FragmentedStream)
    (innerRead : Poll (Except Unit (List Nat))) : Poll (Except Unit (List Nat)) :=
  innerRead

/-! ## Engine orchestrator dispatch (`aether_core/src/engine.rs` lines 150-154)

`EngineCore` keeps an atomic `dispatch_index` and a `Vec` of worker inbox
senders; on each `DISPATCH` command it runs
`i = dispatch_index.fetch_add(1) % worker_txs.len()` and sends the task to
`worker_txs[i]`.  The inboxes are modelled by their received-task counts
(`inbox_count : Nat → Nat`, one counter per worker index). -/

structure EngineCore where
  dispatch_index : Nat
  num_workers : Nat
  inbox_count : Nat → Nat

/-- One `DISPATCH` command: `fetch_add(1)` returns the old index, the task
goes to inbox `old index % num_workers`. -/
def dispatchStep (e : EngineCore) : EngineCore :=
  let i := e.dispatch_index % e.num_workers
  { e with
    dispatch_index := e.dispatch_index + 1
    inbox_count := fun k => if k = i then e.inbox_count k + 1 else e.inbox_count k }

/-- Engine start state: `dispatch_index = 0`, all inboxes empty. -/
def EngineCore.init (num_workers : Nat) : EngineCore :=
  { dispatch_index := 0, num_workers := num_workers, inbox_count := fun _ => 0 }

/-- The engine state after `n` consecutive `DISPATCH` commands. -/
def dispatchN (num_workers n : Nat) : EngineCore :=
  dispatchStep^[n] (EngineCore.init num_workers)

/-! ## JA3 cycling (`aether_net/src/tls.rs`, `Ja3Cycler`)

The cycler holds an ordered provider sequence and an atomic counter; each
`handshake` call runs `i = index.fetch_add(1) % providers.len()` and
delegates to provider `i`.  The providers are modelled by their count
(`num_providers`); a call returns the index of the provider used. -/

structure Ja3Cycler where
  num_providers : Nat
  index : Nat
deriving DecidableEq, Repr

/-- `Ja3Cycler::new`: providers `[NativeProvider, LegacyProvider]`
(two of them), counter 0. -/
def Ja3Cycler.new : Ja3Cycler :=
  { num_providers := 2, index := 0 }

/-- `Ja3Cycler::handshake`: pick `providers[index % N]`, increment the
counter by exactly one; returns the selected provider index. -/
def Ja3Cycler.handshake (c : Ja3Cycler) : Nat × Ja3Cycler :=
  let i := c.index % c.num_providers
  (i, { c with index := c.index + 1 })

/-- The sequence of provider indices selected by `m` consecutive
`handshake` calls. -/
def ja3Handshakes : Ja3Cycler → Nat → List Nat
  | _, 0 => []
  | c, m + 1 =>
      let r := c.handshake
      r.1 :: ja3Handshakes r.2 m

/-! ## Raw-mode target address (`worker.rs`, `Worker::execute_raw_attack`)

`execute_raw_attack` (worker.rs lines 203-215) derives the resolution
address from the target URL:
`host = url.replace(scheme_prefix, "")`, `port = if is_https { 443 } else { 80 }`,
`addr = format!("{}:{}", host, port)` handed to `to_socket_addrs`.
Rust's `str::replace` (replace every occurrence of the pattern) and the
decimal formatting of the port are modelled below; the address is the text
string passed to the resolver, whose port component is the text after the
last colon. -/

/-- Scanner for `replaceAll`, structurally recursive on a fuel argument
(one unit of fuel per consumed character; `replaceAll` supplies the input
length, which always suffices because a match consumes at least one
character when the pattern is non-empty). -/
def replaceAllGo (pat repl : List Nat) : Nat → List Nat → List Nat
  | _, [] => []
  | 0, s => s
  | fuel + 1, c :: rest =>
      if 0 < pat.length ∧ List.take pat.length (c :: rest) = pat then
        repl ++ replaceAllGo pat repl fuel (List.drop pat.length (c :: rest))
      else
        c :: replaceAllGo pat repl fuel rest

/-- Model of Rust `str::replace`: every non-overlapping occurrence of
`pat` (leftmost-first) is replaced by `repl`. -/
def replaceAll (pat repl s : List Nat) : List Nat :=
  replaceAllGo pat repl s.length s

/-- Model of Rust `str::starts_with` on byte strings. -/
def startsWithBytes (pat s : List Nat) : Bool :=
  decide (List.take pat.length s = pat)

/-- Decimal rendering of a number, as used by `format!("{}", port)`. -/
def decimalBytes (n : Nat) : List Nat :=
  (Nat.toDigits 10 n).map Char.toNat

/-- The address string `execute_raw_attack` passes to `to_socket_addrs`:
strip the scheme prefix with `replace`, then append `":{port}"` with the
scheme-default port (443 for `raw-https://`, 80 otherwise). -/
def rawAttackAddr (url : List Nat) : List Nat :=
  let is_https := startsWithBytes (strBytes "raw-https://") url
  let host :=
    if is_https then replaceAll (strBytes "raw-https://") [] url
    else replaceAll (strBytes "raw://") [] url
  let port : Nat := if is_https then 443 else 80
  host ++ strBytes ":" ++ decimalBytes port

/-- The port component of a `host:port` address string: the text after
the last colon (byte 58), which is what `to_socket_addrs` parses as the
port. -/
def portOfAddr (addr : List Nat) : List Nat :=
  (addr.reverse.takeWhile (fun c => c != 58)).reverse

/-! ## Log sanitizer (`engine.rs`, `sanitize_log`, lines 166-191)

The sanitizer formats the attack result into an ASCII base string and then
runs a string pipeline: `strip_ansi_escapes::strip`, `from_utf8_lossy`,
an escape loop keeping `\n` and all non-control characters and expanding
every other control character with `char::escape_default`, and a
truncation to 128 with a `...` ellipsis.  Strings are modelled as lists of
Unicode scalar values; `from_utf8_lossy` is the identity at that level
(the stripped bytes of a valid string decode to the same scalars), and
lengths are counted in characters (on the ASCII base strings the engine
formats these coincide with Rust's byte lengths).  The external
`strip_ansi_escapes` crate (a vte-based terminal-escape parser) is
modelled by `stripAnsiGo`: ANSI escape sequences (ESC-initiated CSI / OSC
/ two-byte sequences) are removed, C0 control bytes other than `\n` and
`\r` and DEL are dropped, and everything else passes through. -/

/-- Rust `char::is_control`: the Unicode Cc category,
`U+0000..U+001F` and `U+007F..U+009F`. -/
def isControlChar (c : Nat) : Bool :=
  decide (c < 32 ∨ (127 ≤ c ∧ c ≤ 159))

/-- Parser state of the ANSI stripper. -/
inductive AnsiState where
  | ground
  | escStart
  | csi
  | osc
deriving DecidableEq, Repr

/-- The vte-style ANSI stripper (model of `strip_ansi_escapes::strip`). -/
def stripAnsiGo : AnsiState → List Nat → List Nat
  | _, [] => []
  | .ground, c :: rest =>
      if c = 27 then stripAnsiGo .escStart rest
      else if c = 10 ∨ c = 13 then c :: stripAnsiGo .ground rest
      else if c < 32 ∨ c = 127 then stripAnsiGo .ground rest
      else c :: stripAnsiGo .ground rest
  | .escStart, c :: rest =>
      if c = 91 then stripAnsiGo .csi rest
      else if c = 93 then stripAnsiGo .osc rest
      else stripAnsiGo .ground rest
  | .csi, c :: rest =>
      if 64 ≤ c ∧ c ≤ 126 then stripAnsiGo .ground rest
      else stripAnsiGo .csi rest
  | .osc, c :: rest =>
      if c = 7 ∨ c = 27 then stripAnsiGo .ground rest
      else stripAnsiGo .osc rest

/-- `strip_ansi_escapes::strip` applied to a whole string. -/
def stripAnsi (s : List Nat) : List Nat :=
  stripAnsiGo .ground s

/-- Lower-case hex digit. -/
def hexLowerDigit (n : Nat) : Nat :=
  if n < 10 then 48 + n else 87 + n

/-- Most-significant-first lower-case hex digits (fuel-structured; the
fuel supplied by `hexLower` always suffices). -/
def hexLowerGo : Nat → Nat → List Nat
  | 0, _ => []
  | fuel + 1, n =>
      if n < 16 then [hexLowerDigit n]
      else hexLowerGo fuel (n / 16) ++ [hexLowerDigit (n % 16)]

/-- Lower-case hex rendering of a scalar value, as in Rust `\u{..}`
escapes. -/
def hexLower (n : Nat) : List Nat :=
  hexLowerGo (n + 1) n

/-- Rust `char::escape_default` for one character: `\t`, `\r`, `\n`,
`\\`, `\'`, `\"`, printable ASCII unchanged, everything else
`\u{hex}`. -/
def escapeDefaultChar (c : Nat) : List Nat :=
  if c = 9 then [92, 116]
  else if c = 13 then [92, 114]
  else if c = 10 then [92, 110]
  else if c = 92 then [92, 92]
  else if c = 39 then [92, 39]
  else if c = 34 then [92, 34]
  else if 32 ≤ c ∧ c ≤ 126 then [c]
  else [92, 117, 123] ++ hexLower c ++ [125]

/-- The escape loop of `sanitize_log`: keep `\n` and every non-control
character, expand any other control character with `escape_default`. -/
def escapeControls : List Nat → List Nat
  | [] => []
  | c :: rest =>
      if c = 10 ∨ isControlChar c = false then c :: escapeControls rest
      else escapeDefaultChar c ++ escapeControls rest

/-- The truncation step of `sanitize_log`: over 128 characters, cut to
125 and append `...`. -/
def truncateLog (s : List Nat) : List Nat :=
  if 128 < s.length then s.take 125 ++ strBytes "..." else s

/-- The string pipeline of `sanitize_log` applied to the formatted base
string. -/
def sanitize_log (base : List Nat) : List Nat :=
  truncateLog (escapeControls (stripAnsi base))

/-! ## Theorems -/

/-- **C3**: For every task a worker processes, exactly one of two counter
updates happens on the shared state: if the attack result is `Ok`,
`total_requests` is incremented exactly once and `total_bytes` receives
exactly one `fetch_add` of the result's `size_bytes` (`error_count`
unchanged); if the result is an error, `error_count` is incremented exactly
once (`total_requests` and `total_bytes` unchanged).  All three counters
are monotonic non-decreasing. -/
theorem recordOutcome_exactly_one_update (c : SharedCounters)
    (r : Except Unit AttackResult) :
    (∀ m, r = .ok m →
      recordOutcome c r =
        { c with
          total_requests := c.total_requests + 1
          total_bytes := c.total_bytes + m.size_bytes }) ∧
    (∀ e, r = .error e →
      recordOutcome c r = { c with error_count := c.error_count + 1 }) ∧
    c.total_requests ≤ (recordOutcome c r).total_requests ∧
    c.total_bytes ≤ (recordOutcome c r).total_bytes ∧
    c.error_count ≤ (recordOutcome c r).error_count := by
  refine ⟨?_, ?_, ?_, ?_, ?_⟩ <;> cases r <;>
    simp [recordOutcome]

/-- **C3 witness**: concrete evaluation of both branches. -/
theorem recordOutcome_exactly_one_update_witness :
    recordOutcome ⟨5, 100, 2⟩ (.ok ⟨200, 10, 7⟩) = ⟨6, 107, 2⟩ ∧
    recordOutcome ⟨5, 100, 2⟩ (.error ()) = ⟨5, 100, 3⟩ := by
  refine ⟨?_, ?_⟩
  · exact (recordOutcome_exactly_one_update ⟨5, 100, 2⟩ (.ok ⟨200, 10, 7⟩)).1
      ⟨200, 10, 7⟩ rfl
  · exact (recordOutcome_exactly_one_update ⟨5, 100, 2⟩ (.error ())).2.1 () rfl

/-- **C10**: Telemetry sync is atomic with respect to channel failure:
when the non-blocking send fails, the worker's local histogram, its
samples-since-last-sync counter, and its last-sync instant are all left
unchanged and nothing is shipped; they are reset exactly when the snapshot
is accepted, and the accepted snapshot is the full pre-sync histogram, so
a dropped sync never discards accumulated latency samples. -/
theorem sync_telemetry_atomic (w : WorkerTelemetry) (send_ok : Bool) (now : Nat) :
    (send_ok = false → sync_telemetry w send_ok now = (w, none)) ∧
    (send_ok = true →
      sync_telemetry w send_ok now =
        ({ histogram := [], requests_since_last_sync := 0, last_sync := now },
          some w.histogram)) := by
  cases send_ok <;> simp [sync_telemetry]

/-- **C10 witness**: concrete evaluation of the failing and succeeding sync. -/
theorem sync_telemetry_atomic_witness :
    sync_telemetry ⟨[3, 4], 2, 17⟩ false 99 = (⟨[3, 4], 2, 17⟩, none) ∧
    sync_telemetry ⟨[3, 4], 2, 17⟩ true 99 = (⟨[], 0, 99⟩, some [3, 4]) :=
  ⟨(sync_telemetry_atomic ⟨[3, 4], 2, 17⟩ false 99).1 rfl,
   (sync_telemetry_atomic ⟨[3, 4], 2, 17⟩ true 99).2 rfl⟩

/-- **C6**: `NativeProvider::handshake` returns a hard error for every
profile with `force_tls11 = true` (the underlying stream is never
handshaken: the error is returned before the connector is built);
otherwise it selects the client configuration with ALPN exactly
`["http/1.1"]` if and only if `profile.force_http1` is true, and the
configuration with ALPN `["h2", "http/1.1"]` otherwise. -/
theorem nativeProvider_handshake_spec (profile : AttackProfile) :
    (profile.force_tls11 = true →
      ∃ e, NativeProvider.new.handshake profile = .error e) ∧
    (profile.force_tls11 = false →
      ∃ cfg, NativeProvider.new.handshake profile = .ok cfg ∧
        (cfg.alpn_protocols = [strBytes "http/1.1"] ↔ profile.force_http1 = true) ∧
        (cfg.alpn_protocols = [strBytes "h2", strBytes "http/1.1"] ↔
          profile.force_http1 = false)) := by
  obtain ⟨h1, h10, t11, z, f⟩ := profile
  cases t11 <;> cases h1 <;>
    simp [NativeProvider.handshake, NativeProvider.new, strBytes]

/-- **C6 witness**: the three reachable outcomes at concrete profiles. -/
theorem nativeProvider_handshake_spec_witness :
    (∃ e, NativeProvider.new.handshake ⟨true, false, true, false, false⟩ = .error e) ∧
    (∃ cfg, NativeProvider.new.handshake ⟨true, false, false, false, false⟩ = .ok cfg ∧
      cfg.alpn_protocols = [strBytes "http/1.1"]) ∧
    (∃ cfg, NativeProvider.new.handshake ⟨false, false, false, false, false⟩ = .ok cfg ∧
      cfg.alpn_protocols = [strBytes "h2", strBytes "http/1.1"]) := by
  refine ⟨(nativeProvider_handshake_spec ⟨true, false, true, false, false⟩).1 rfl, ?_, ?_⟩
  · obtain ⟨cfg, hcfg, halpn, -⟩ :=
      (nativeProvider_handshake_spec ⟨true, false, false, false, false⟩).2 rfl
    exact ⟨cfg, hcfg, halpn.mpr rfl⟩
  · obtain ⟨cfg, hcfg, -, halpn⟩ :=
      (nativeProvider_handshake_spec ⟨false, false, false, false, false⟩).2 rfl
    exact ⟨cfg, hcfg, halpn.mpr rfl⟩

/-- **C1**: For every call to `generate_into(buffer, template)`, the buffer
is first cleared to length 0 (so the result is independent of the incoming
buffer contents), then exactly one variant chosen by the uniform draw over
index 0..11 is appended; for every variant the resulting buffer has length
> 0, and for the NOOP variant (index 11) the resulting length is exactly 4.
(`hgz`: the gzip encoder emits at least one byte — a gzip stream always
carries its fixed header.) -/
theorem generate_into_spec (gz : List Nat) (strategy : Fin 12) (badIdx : Fin 5)
    (randHigh : Nat) (verbIdx : Fin 6) (buffer buffer' template : List Nat)
    (hgz : 0 < gz.length) :
    generate_into gz strategy badIdx randHigh verbIdx buffer template =
      generate_into gz strategy badIdx randHigh verbIdx buffer' template ∧
    0 < (generate_into gz strategy badIdx randHigh verbIdx buffer template).length ∧
    ((strategy : Nat) = 11 →
      (generate_into gz strategy badIdx randHigh verbIdx buffer template).length = 4) := by
  refine ⟨rfl, ?_, ?_⟩
  · fin_cases strategy
    · show 0 < (generate_overflow [] (1024 * 64)).length
      simp [-List.reduceReplicate, generate_overflow]
    · show 0 < (generate_injection []).length
      simp [generate_injection, strBytes]
    · show 0 < (generate_json_explosion [] 1000).length
      rw [generate_json_explosion]
      simp only [List.length_append, List.length_replicate]
      omega
    · show 0 < (generate_gzip_bomb gz [] (1024 * 1024)).length
      simpa [generate_gzip_bomb] using hgz
    · show 0 < (generate_oversized_headers [] 8192).length
      simp [-List.reduceReplicate, generate_oversized_headers, strBytes]
    · show 0 < (generate_double_encoded [] (strBytes "' OR 1=1 --")).length
      simp [generate_double_encoded, urlencode, isUrlUnreserved,
        hexUpperDigit, strBytes]
    · show 0 < (generate_bad_char_walk [] (strBytes "admin") badIdx.val randHigh).length
      rw [generate_bad_char_walk]
      split <;> simp [List.length_set, strBytes]
    · show 0 < (generate_verb_manipulation [] verbIdx).length
      simp [generate_verb_manipulation, strBytes]
    · show 0 < (generate_smuggling_payload [] (strBytes "target.local")).length
      simp [generate_smuggling_payload, strBytes]
    · show 0 < (generate_null_byte_abuse []).length
      simp [generate_null_byte_abuse, strBytes]
    · show 0 < (generate_handshake_termination []).length
      simp [generate_handshake_termination]
    · show 0 < (([] : List Nat) ++ strBytes "NOOP").length
      simp [strBytes]
  · fin_cases strategy
    · exact fun h => absurd h (by decide)
    · exact fun h => absurd h (by decide)
    · exact fun h => absurd h (by decide)
    · exact fun h => absurd h (by decide)
    · exact fun h => absurd h (by decide)
    · exact fun h => absurd h (by decide)
    · exact fun h => absurd h (by decide)
    · exact fun h => absurd h (by decide)
    · exact fun h => absurd h (by decide)
    · exact fun h => absurd h (by decide)
    · exact fun h => absurd h (by decide)
    · intro h
      show (([] : List Nat) ++ strBytes "NOOP").length = 4
      simp [strBytes]

/-- **C1 witness**: the NOOP variant at concrete inputs. -/
theorem generate_into_spec_witness :
    0 < ([31] : List Nat).length ∧
    (generate_into [31] 11 0 200 0 [7, 7] [1, 2]).length = 4 :=
  ⟨by decide,
    (generate_into_spec [31] 11 0 200 0 [7, 7] [9] [1, 2] (by decide)).2.2 rfl⟩

/-- **C5**: In `connect_adversarial`, the socket options `SO_LINGER = 0`,
`TCP_NODELAY = on`, and non-blocking mode are all applied before `connect`
is initiated (no such option application ever appears at or after the
`connect` call in any run), the optional local address is bound before
`connect`, and a `connect` returning `WouldBlock` is treated exactly like
a successful connect rather than an error. -/
theorem connect_adversarial_preflight (hasLocalAddr : Bool)
    (lingerOk nodelayOk nonblockOk bindOk : Bool)
    (connectRes : ConnectOutcome) (postNonblockOk : Bool) :
    (((connect_adversarial hasLocalAddr lingerOk nodelayOk nonblockOk bindOk
        connectRes postNonblockOk).2.dropWhile
          (fun op => !isConnectOp op)).all
        (fun op => !isAdversarialOpt op) = true) ∧
    (SockOp.connectRemote ∈ (connect_adversarial hasLocalAddr lingerOk
        nodelayOk nonblockOk bindOk connectRes postNonblockOk).2 →
      (SockOp.setLinger 0 ∈ (connect_adversarial hasLocalAddr lingerOk
          nodelayOk nonblockOk bindOk connectRes postNonblockOk).2.takeWhile
            (fun op => !isConnectOp op) ∧
       SockOp.setNodelay true ∈ (connect_adversarial hasLocalAddr lingerOk
          nodelayOk nonblockOk bindOk connectRes postNonblockOk).2.takeWhile
            (fun op => !isConnectOp op) ∧
       SockOp.setNonblocking true ∈ (connect_adversarial hasLocalAddr lingerOk
          nodelayOk nonblockOk bindOk connectRes postNonblockOk).2.takeWhile
            (fun op => !isConnectOp op) ∧
       (hasLocalAddr = true →
         SockOp.bindLocal ∈ (connect_adversarial hasLocalAddr lingerOk
            nodelayOk nonblockOk bindOk connectRes postNonblockOk).2.takeWhile
              (fun op => !isConnectOp op)))) ∧
    connect_adversarial hasLocalAddr lingerOk nodelayOk nonblockOk bindOk
        ConnectOutcome.wouldBlock postNonblockOk =
      connect_adversarial hasLocalAddr lingerOk nodelayOk nonblockOk bindOk
        ConnectOutcome.ok postNonblockOk := by
  cases hasLocalAddr <;> cases lingerOk <;> cases nodelayOk <;>
    cases nonblockOk <;> cases bindOk <;> cases connectRes <;>
    cases postNonblockOk <;> decide

/-- **C5 witness**: the fully successful run with a local bind and a
`WouldBlock` connect applies all options and the bind before `connect`. -/
theorem connect_adversarial_preflight_witness :
    SockOp.setLinger 0 ∈ (connect_adversarial true true true true true
        ConnectOutcome.wouldBlock true).2.takeWhile (fun op => !isConnectOp op) ∧
    SockOp.bindLocal ∈ (connect_adversarial true true true true true
        ConnectOutcome.wouldBlock true).2.takeWhile (fun op => !isConnectOp op) := by
  have h := (connect_adversarial_preflight true true true true true
    ConnectOutcome.wouldBlock true).2.1 (by decide)
  exact ⟨h.1, h.2.2.2 rfl⟩

/-- `poll_write` when the pacing timer has not elapsed: `Pending`, state
unchanged, nothing written. -/
theorem poll_write_timer_pending (s : FragmentedStream) (now : Nat)
    (buf : List Nat) (inner : List Nat → Poll (Except Unit Nat))
    (h1 : now < s.timer_deadline) :
    poll_write s now buf inner = (Poll.Pending, s, []) := by
  rw [poll_write, if_pos h1]

/-- `poll_write` when the timer elapsed but the capped write is empty on a
non-empty buffer: `Ready(Ok 0)`, nothing written. -/
theorem poll_write_zero_cap (s : FragmentedStream) (now : Nat)
    (buf : List Nat) (inner : List Nat → Poll (Except Unit Nat))
    (h1 : ¬ now < s.timer_deadline)
    (h2 : min buf.length s.chunk_size = 0 ∧ buf ≠ []) :
    poll_write s now buf inner = (Poll.Ready (.ok 0), s, []) := by
  rw [poll_write, if_neg h1]
  dsimp only
  rw [if_pos]
  exact h2

/-- `poll_write` in the forwarding case: the capped slice goes to the inner
stream and a successful write of `n > 0` bytes re-arms the 5 ms timer. -/
theorem poll_write_forward (s : FragmentedStream) (now : Nat)
    (buf : List Nat) (inner : List Nat → Poll (Except Unit Nat))
    (h1 : ¬ now < s.timer_deadline)
    (h2 : ¬ (min buf.length s.chunk_size = 0 ∧ buf ≠ [])) :
    poll_write s now buf inner =
      (match inner (buf.take (min buf.length s.chunk_size)) with
       | Poll.Ready result =>
          (Poll.Ready result,
            match result with
            | .ok n =>
                if 0 < n then { s with timer_deadline := now + 5 } else s
            | .error _ => s,
            [buf.take (min buf.length s.chunk_size)])
       | Poll.Pending =>
          (Poll.Pending, s, [buf.take (min buf.length s.chunk_size)])) := by
  rw [poll_write, if_neg h1]
  dsimp only
  rw [if_neg h2]

/-- **C4**: For every stream wrapped by `wrap_fragmented(stream, chunk_size)`
and every write issued through it, no single write to the underlying stream
exceeds `chunk_size` bytes; after any successful non-empty write the 5 ms
pacing timer must elapse before the next write is accepted (while the timer
has not elapsed, `poll_write` returns `Pending` and issues nothing to the
inner stream); reads pass through unchanged. -/
theorem poll_write_fragmented_paced (s : FragmentedStream) (now : Nat)
    (buf : List Nat) (inner : List Nat → Poll (Except Unit Nat)) :
    (∀ w ∈ (poll_write s now buf inner).2.2, w.length ≤ s.chunk_size) ∧
    (now < s.timer_deadline →
      poll_write s now buf inner = (Poll.Pending, s, [])) ∧
    (∀ n, (poll_write s now buf inner).1 = Poll.Ready (.ok n) → 0 < n →
      (poll_write s now buf inner).2.1.timer_deadline = now + 5) ∧
    (∀ n (now' : Nat) buf' inner', (poll_write s now buf inner).1 = Poll.Ready (.ok n) →
      0 < n → now' < now + 5 →
      poll_write (poll_write s now buf inner).2.1 now' buf' inner' =
        (Poll.Pending, (poll_write s now buf inner).2.1, [])) ∧
    (∀ r, poll_read s r = r) := by
  have harm : ∀ n, (poll_write s now buf inner).1 = Poll.Ready (.ok n) →
      0 < n → (poll_write s now buf inner).2.1.timer_deadline = now + 5 := by
    intro n hn hpos
    by_cases h1 : now < s.timer_deadline
    · rw [poll_write_timer_pending s now buf inner h1] at hn
      simp at hn
    · by_cases h2 : min buf.length s.chunk_size = 0 ∧ buf ≠ []
      · rw [poll_write_zero_cap s now buf inner h1 h2] at hn
        simp at hn
        omega
      · rw [poll_write_forward s now buf inner h1 h2] at hn ⊢
        cases hinner : inner (buf.take (min buf.length s.chunk_size)) with
        | Pending =>
          rw [hinner] at hn
          simp at hn
        | Ready result =>
          cases result with
          | error e =>
            rw [hinner] at hn
            simp at hn
          | ok n0 =>
            rw [hinner] at hn
            simp at hn
            subst hn
            simp [hpos]
  refine ⟨?_, poll_write_timer_pending s now buf inner, harm, ?_,
    fun r => rfl⟩
  · intro w hw
    by_cases h1 : now < s.timer_deadline
    · rw [poll_write_timer_pending s now buf inner h1] at hw
      simp at hw
    · by_cases h2 : min buf.length s.chunk_size = 0 ∧ buf ≠ []
      · rw [poll_write_zero_cap s now buf inner h1 h2] at hw
        simp at hw
      · rw [poll_write_forward s now buf inner h1 h2] at hw
        cases hinner : inner (buf.take (min buf.length s.chunk_size)) with
        | Pending =>
          rw [hinner] at hw
          simp at hw
          simp [hw, List.length_take]
        | Ready result =>
          cases result with
          | error e =>
            rw [hinner] at hw
            simp at hw
            simp [hw, List.length_take]
          | ok n0 =>
            rw [hinner] at hw
            simp at hw
            simp [hw, List.length_take]
  · intro n now' buf' inner' hn hpos hlt
    have hd := harm n hn hpos
    exact poll_write_timer_pending _ now' buf' inner' (by omega)

/-- **C4 witness**: with chunk size 5, a 9-byte write issues a 5-byte
fragment, arms the 5 ms timer, and an immediate retry polls `Pending`. -/
theorem poll_write_fragmented_paced_witness :
    (∀ w ∈ (poll_write (wrap_fragmented 5 0) 0 [1,2,3,4,5,6,7,8,9]
        (fun wb => Poll.Ready (.ok wb.length))).2.2, w.length ≤ 5) ∧
    poll_write (poll_write (wrap_fragmented 5 0) 0 [1,2,3,4,5,6,7,8,9]
        (fun wb => Poll.Ready (.ok wb.length))).2.1 2 [6,7,8,9]
        (fun wb => Poll.Ready (.ok wb.length)) =
      (Poll.Pending, (poll_write (wrap_fragmented 5 0) 0 [1,2,3,4,5,6,7,8,9]
        (fun wb => Poll.Ready (.ok wb.length))).2.1, []) := by
  have h := poll_write_fragmented_paced (wrap_fragmented 5 0) 0
    [1,2,3,4,5,6,7,8,9] (fun wb => Poll.Ready (.ok wb.length))
  exact ⟨h.1, h.2.2.2.1 5 2 [6,7,8,9] (fun wb => Poll.Ready (.ok wb.length))
    (by decide) (by decide) (by decide)⟩

/-- Counting residues in an initial segment: among `0, …, n-1` exactly
`n / W + (1 if k < n % W)` numbers are congruent to `k` modulo `W`. -/
theorem countP_mod_range (W n k : Nat) (hW : 0 < W) (hk : k < W) :
    (List.range n).countP (fun j => j % W == k) =
      n / W + if k < n % W then 1 else 0 := by
  induction n with
  | zero => simp
  | succ n ih =>
    rw [List.range_succ, List.countP_append, ih]
    have hr : n % W < W := Nat.mod_lt _ hW
    rcases Nat.lt_or_ge (n % W + 1) W with hc | hc
    · have hW1 : 1 < W := by omega
      have hmod : (n + 1) % W = n % W + 1 := by
        rw [Nat.add_mod, Nat.mod_eq_of_lt hW1, Nat.mod_eq_of_lt hc]
      have hdvd : ¬ W ∣ (n + 1) := by
        intro hd
        have h0 := Nat.mod_eq_zero_of_dvd hd
        omega
      have hdiv : (n + 1) / W = n / W := by
        rw [Nat.succ_div, if_neg hdvd]
        omega
      rw [hmod, hdiv]
      simp only [List.countP_cons, List.countP_nil, beq_iff_eq]
      split_ifs <;> omega
    · have hc2 : n % W + 1 = W := by omega
      have hdvd : W ∣ (n + 1) := by
        refine ⟨n / W + 1, ?_⟩
        have h := Nat.div_add_mod n W
        calc n + 1 = W * (n / W) + (n % W + 1) := by omega
          _ = W * (n / W) + W := by omega
          _ = W * (n / W + 1) := by ring
      have hmod0 : (n + 1) % W = 0 := Nat.mod_eq_zero_of_dvd hdvd
      have hdiv : (n + 1) / W = n / W + 1 := by
        rw [Nat.succ_div, if_pos hdvd]
      rw [hmod0, hdiv]
      simp only [List.countP_cons, List.countP_nil, beq_iff_eq]
      split_ifs <;> omega

/-- After `n` dispatches the atomic index is exactly `n` and the worker
count is unchanged. -/
theorem dispatchN_fields (W n : Nat) :
    (dispatchN W n).dispatch_index = n ∧ (dispatchN W n).num_workers = W := by
  induction n with
  | zero => exact ⟨rfl, rfl⟩
  | succ n ih =>
    have h : dispatchN W (n + 1) = dispatchStep (dispatchN W n) :=
      Function.iterate_succ_apply' _ _ _
    rw [h, dispatchStep]
    exact ⟨by simp [ih.1], ih.2⟩

/-- Inbox `k` after `n` dispatches holds exactly the number of indices
`j < n` with `j % W = k`. -/
theorem dispatchN_inbox_count (W n k : Nat) :
    (dispatchN W n).inbox_count k =
      (List.range n).countP (fun j => j % W == k) := by
  induction n with
  | zero => simp [dispatchN, EngineCore.init]
  | succ n ih =>
    have h : dispatchN W (n + 1) = dispatchStep (dispatchN W n) :=
      Function.iterate_succ_apply' _ _ _
    rw [h, List.range_succ, List.countP_append, ← ih, dispatchStep]
    dsimp only
    rw [(dispatchN_fields W n).1, (dispatchN_fields W n).2]
    simp only [List.countP_cons, List.countP_nil, beq_iff_eq, Nat.zero_add]
    by_cases hk : k = n % W
    · subst hk
      simp
    · rw [if_neg hk, if_neg (fun h' => hk h'.symm)]
      simp

/-- The closed form for an inbox count after `M` dispatches. -/
theorem dispatchN_count_formula (W M j : Nat) (hW : 0 < W) (hj : j < W) :
    (dispatchN W M).inbox_count j = M / W + if j < M % W then 1 else 0 := by
  rw [dispatchN_inbox_count, countP_mod_range W M j hW hj]

/-- **C2**: Dispatch is strict round-robin: the orchestrator routes the
`n`-th `DISPATCH` command (0-based) to worker inbox `n % W`, so after any
`N` dispatches over `W` workers inbox `k` holds
`N / W + (1 if k < N % W)` tasks and any two inbox counts differ by at
most 1; in particular with 10 workers and 1000 `DISPATCH` commands every
worker inbox receives exactly 100 tasks. -/
theorem engine_dispatch_round_robin (W N k l n : Nat) (hW : 0 < W)
    (hk : k < W) (hl : l < W) :
    ((dispatchN W (n + 1)).inbox_count k =
      (dispatchN W n).inbox_count k + if k = n % W then 1 else 0) ∧
    (dispatchN W N).inbox_count k = N / W + (if k < N % W then 1 else 0) ∧
    (dispatchN W N).inbox_count k ≤ (dispatchN W N).inbox_count l + 1 ∧
    (k < 10 → (dispatchN 10 1000).inbox_count k = 100) := by
  refine ⟨?_, dispatchN_count_formula W N k hW hk, ?_, ?_⟩
  · have h : dispatchN W (n + 1) = dispatchStep (dispatchN W n) :=
      Function.iterate_succ_apply' _ _ _
    rw [h, dispatchStep]
    dsimp only
    rw [(dispatchN_fields W n).1, (dispatchN_fields W n).2]
    split_ifs <;> omega
  · rw [dispatchN_count_formula W N k hW hk, dispatchN_count_formula W N l hW hl]
    split_ifs <;> omega
  · intro hk10
    rw [dispatchN_count_formula 10 1000 k (by norm_num) hk10]
    norm_num

/-- **C2 witness**: 7 dispatches over 3 workers put 3 tasks in inbox 0;
1000 dispatches over 10 workers put exactly 100 tasks in inbox 4. -/
theorem engine_dispatch_round_robin_witness :
    (dispatchN 3 7).inbox_count 0 = 3 ∧ (dispatchN 10 1000).inbox_count 4 = 100 := by
  have h1 := (engine_dispatch_round_robin 3 7 0 1 0 (by norm_num) (by norm_num)
    (by norm_num)).2.1
  have h2 := (engine_dispatch_round_robin 10 1000 4 0 0 (by norm_num) (by norm_num)
    (by norm_num)).2.2.2 (by norm_num)
  norm_num at h1
  exact ⟨h1, h2⟩

/-- The provider-index sequence of `m` handshakes starting at counter `s`
is `(s + j) % N` for `j = 0, …, m-1`. -/
theorem ja3Handshakes_eq_map (N : Nat) (m : Nat) : ∀ (s : Nat),
    ja3Handshakes ⟨N, s⟩ m = (List.range m).map (fun j => (s + j) % N) := by
  induction m with
  | zero => intro s; simp [ja3Handshakes]
  | succ m ih =>
    intro s
    rw [ja3Handshakes]
    dsimp [Ja3Cycler.handshake]
    rw [ih (s + 1), List.range_succ_eq_map, List.map_cons, List.map_map]
    refine congrArg₂ _ (by simp) ?_
    refine List.map_congr_left fun a _ => ?_
    simp only [Function.comp_apply]
    congr 1
    omega

/-- Ceiling division: when `a` is not a multiple of `N`,
`(a + N - 1) / N = a / N + 1`. -/
theorem ceil_div_of_mod_pos (a N : Nat) (hN : 0 < N) (h : 0 < a % N) :
    (a + N - 1) / N = a / N + 1 := by
  have hd := Nat.div_add_mod a N
  have hm : a % N < N := Nat.mod_lt _ hN
  have lo : (a / N + 1) * N ≤ a + N - 1 := by
    have he : (a / N + 1) * N = N * (a / N) + N := by ring
    omega
  have hi : a + N - 1 < (a / N + 1 + 1) * N := by
    have he : (a / N + 1 + 1) * N = N * (a / N) + N + N := by ring
    omega
  exact Nat.div_eq_of_lt_le lo hi

/-- Closed form for how often provider `k` is selected in 100 handshakes. -/
theorem ja3_count_formula (N k : Nat) (hN : 0 < N) (hk : k < N) :
    (ja3Handshakes ⟨N, 0⟩ 100).count k =
      100 / N + if k < 100 % N then 1 else 0 := by
  rw [ja3Handshakes_eq_map N 100 0, List.count_eq_countP, List.countP_map]
  have he : ((fun a => a == k) ∘ fun j => (0 + j) % N) = fun j => j % N == k := by
    funext j
    simp [Function.comp]
  rw [he, countP_mod_range N 100 k hN hk]

/-- **C7**: `Ja3Cycler` rotation is strict round-robin: the `j`-th call to
`handshake` (0-based) delegates to `providers[j % N]` and increments the
atomic counter by exactly 1, so after 100 handshakes with `N` providers
each provider is called `⌊100/N⌋` or `⌈100/N⌉` times. -/
theorem ja3Cycler_round_robin (N m k j : Nat) (hN : 0 < N) (hk : k < N)
    (hj : j < m) :
    (Ja3Cycler.handshake ⟨N, j⟩).2.index = j + 1 ∧
    (ja3Handshakes ⟨N, 0⟩ m).getD j 0 = j % N ∧
    ((ja3Handshakes ⟨N, 0⟩ 100).count k = 100 / N ∨
      (ja3Handshakes ⟨N, 0⟩ 100).count k = (100 + N - 1) / N) := by
  refine ⟨rfl, ?_, ?_⟩
  · rw [ja3Handshakes_eq_map N m 0]
    have hlen : j < ((List.range m).map (fun i => (0 + i) % N)).length := by
      simpa using hj
    rw [List.getD_eq_getElem _ _ hlen]
    simp
  · rw [ja3_count_formula N k hN hk]
    by_cases hmod : k < 100 % N
    · right
      rw [if_pos hmod, ceil_div_of_mod_pos 100 N hN (by omega)]
    · left
      rw [if_neg hmod]
      omega

/-- **C7 witness**: with the two providers of `Ja3Cycler::new`, provider 0
is selected either ⌊100/2⌋ or ⌈100/2⌉ times over 100 handshakes. -/
theorem ja3Cycler_round_robin_witness :
    (ja3Handshakes Ja3Cycler.new 100).count 0 = 100 / 2 ∨
    (ja3Handshakes Ja3Cycler.new 100).count 0 = (100 + 2 - 1) / 2 :=
  (ja3Cycler_round_robin 2 100 0 5 (by norm_num) (by norm_num)
    (by norm_num)).2.2

/-- **C8 counterexample**: for the raw-mode URL `raw://example.com:8080`,
which carries the explicit port 8080, the address string the worker hands
to the resolver is `example.com:8080:80` — its port component is `80`, not
the port named in the URL, so the claim "the worker connects to the port
named in the URL when it carries an explicit port" is false on the code. -/
theorem rawAttackAddr_explicit_port_ignored :
    rawAttackAddr (strBytes "raw://example.com:8080") =
      strBytes "example.com:8080:80" ∧
    portOfAddr (rawAttackAddr (strBytes "raw://example.com:8080")) =
      strBytes "80" ∧
    strBytes "80" ≠ strBytes "8080" := by
  refine ⟨by decide, by decide, by decide⟩

/-- **C8 (amended)**: for every raw-mode target URL the worker always
appends the scheme-default port — `:80` for `raw://…`, `:443` for
`raw-https://…` — to the prefix-stripped URL text and resolves that
string; an explicit port in the URL is not parsed (the default port is
appended after it). -/
theorem rawAttackAddr_default_port (url : List Nat) :
    (startsWithBytes (strBytes "raw-https://") url = false →
      rawAttackAddr url =
        replaceAll (strBytes "raw://") [] url ++ strBytes ":80") ∧
    (startsWithBytes (strBytes "raw-https://") url = true →
      rawAttackAddr url =
        replaceAll (strBytes "raw-https://") [] url ++ strBytes ":443") := by
  constructor
  · intro h
    rw [rawAttackAddr]
    simp only [h, if_false, Bool.false_eq_true, List.append_assoc]
    congr 1
  · intro h
    rw [rawAttackAddr]
    simp only [h, if_true, List.append_assoc]
    congr 1

/-- **C8 witness**: concrete default-port addresses for both schemes. -/
theorem rawAttackAddr_default_port_witness :
    rawAttackAddr (strBytes "raw://example.com") = strBytes "example.com:80" ∧
    rawAttackAddr (strBytes "raw-https://example.com") =
      strBytes "example.com:443" := by
  constructor
  · rw [(rawAttackAddr_default_port (strBytes "raw://example.com")).1 (by decide)]
    decide
  · rw [(rawAttackAddr_default_port (strBytes "raw-https://example.com")).2 (by decide)]
    decide

/-- Hex digits are printable ASCII. -/
theorem hexLowerGo_mem (fuel : Nat) : ∀ n d, d ∈ hexLowerGo fuel n →
    48 ≤ d ∧ d ≤ 102 := by
  induction fuel with
  | zero =>
    intro n d hd
    simp [hexLowerGo] at hd
  | succ fuel ih =>
    intro n d hd
    rw [hexLowerGo] at hd
    split at hd
    · simp at hd
      subst hd
      rw [hexLowerDigit]
      split <;> omega
    · rw [List.mem_append] at hd
      rcases hd with h | h
      · exact ih _ d h
      · have hm : n % 16 < 16 := Nat.mod_lt _ (by omega)
        simp at h
        subst h
        rw [hexLowerDigit]
        split <;> omega

/-- Every character emitted by `escape_default` survives the sanitizer
unchanged: it is a newline or a non-control character. -/
theorem escapeDefaultChar_clean (c : Nat) : ∀ d ∈ escapeDefaultChar c,
    d = 10 ∨ isControlChar d = false := by
  intro d hd
  rw [escapeDefaultChar] at hd
  split_ifs at hd with h1 h2 h3 h4 h5 h6 h7
  · simp at hd
    rcases hd with rfl | rfl <;> exact Or.inr rfl
  · simp at hd
    rcases hd with rfl | rfl <;> exact Or.inr rfl
  · simp at hd
    rcases hd with rfl | rfl <;> exact Or.inr rfl
  · simp at hd
    subst hd
    exact Or.inr rfl
  · simp at hd
    rcases hd with rfl | rfl <;> exact Or.inr rfl
  · simp at hd
    rcases hd with rfl | rfl <;> exact Or.inr rfl
  · simp at hd
    subst hd
    right
    simp [isControlChar]
    omega
  · simp only [List.append_assoc, List.mem_append] at hd
    rcases hd with h | h
    · simp at h
      rcases h with rfl | rfl | rfl <;> exact Or.inr rfl
    · rcases h with h' | h'
      · have := hexLowerGo_mem (c + 1) c d h'
        right
        simp [isControlChar]
        omega
      · simp at h'
        subst h'
        right
        rfl

/-- Every character of the escape loop's output is a newline or a
non-control character. -/
theorem escapeControls_clean (s : List Nat) : ∀ d ∈ escapeControls s,
    d = 10 ∨ isControlChar d = false := by
  induction s with
  | nil => simp [escapeControls]
  | cons c rest ih =>
    intro d hd
    rw [escapeControls] at hd
    split at hd
    · rename_i hc
      rcases List.mem_cons.mp hd with rfl | h
      · exact hc
      · exact ih d h
    · rcases List.mem_append.mp hd with h | h
      · exact escapeDefaultChar_clean c d h
      · exact ih d h

/-- The ANSI stripper is the identity on strings whose characters are all
newlines or non-control characters. -/
theorem stripAnsi_id_of_clean (s : List Nat)
    (h : ∀ c ∈ s, c = 10 ∨ isControlChar c = false) : stripAnsi s = s := by
  rw [stripAnsi]
  induction s with
  | nil => rfl
  | cons c rest ih =>
    have hc := h c (List.mem_cons_self c rest)
    simp only [isControlChar, decide_eq_false_iff_not] at hc
    have hrest := ih (fun d hd => h d (List.mem_cons_of_mem _ hd))
    rw [stripAnsiGo, if_neg (show ¬ c = 27 by omega)]
    by_cases h10 : c = 10 ∨ c = 13
    · rw [if_pos h10, hrest]
    · rw [if_neg h10, if_neg (show ¬ (c < 32 ∨ c = 127) by omega), hrest]

/-- The escape loop is the identity on strings whose characters are all
newlines or non-control characters. -/
theorem escapeControls_id_of_clean (s : List Nat)
    (h : ∀ c ∈ s, c = 10 ∨ isControlChar c = false) : escapeControls s = s := by
  induction s with
  | nil => rfl
  | cons c rest ih =>
    have hc := h c (List.mem_cons_self c rest)
    have hrest := ih (fun d hd => h d (List.mem_cons_of_mem _ hd))
    rw [escapeControls, if_pos hc, hrest]

/-- The truncation step never returns more than 128 characters. -/
theorem truncateLog_length (s : List Nat) : (truncateLog s).length ≤ 128 := by
  rw [truncateLog]
  split
  · simp [List.length_take, strBytes]
  · omega

/-- Characters of the truncated string come from the input or from the
`...` ellipsis. -/
theorem truncateLog_mem (s : List Nat) (d : Nat) (hd : d ∈ truncateLog s) :
    d ∈ s ∨ d = 46 := by
  rw [truncateLog] at hd
  split at hd
  · rcases List.mem_append.mp hd with h | h
    · exact Or.inl (List.take_subset _ _ h)
    · right
      simp [strBytes] at h
      exact h
  · exact Or.inl hd

/-- **C9**: The log sanitizer is idempotent: for every input string,
applying the sanitizing transformation (strip ANSI escape sequences, keep
newlines, escape other control characters, truncate at 128 with ellipsis)
twice yields the same string as applying it once, and its output never
exceeds 128 characters. -/
theorem sanitize_log_idempotent (s : List Nat) :
    sanitize_log (sanitize_log s) = sanitize_log s ∧
    (sanitize_log s).length ≤ 128 := by
  have hclean : ∀ d ∈ sanitize_log s, d = 10 ∨ isControlChar d = false := by
    intro d hd
    rw [sanitize_log] at hd
    rcases truncateLog_mem _ d hd with h | h
    · exact escapeControls_clean _ d h
    · subst h
      right
      rfl
  have hlen : (sanitize_log s).length ≤ 128 :=
    truncateLog_length (escapeControls (stripAnsi s))
  refine ⟨?_, hlen⟩
  conv_lhs => rw [sanitize_log]
  rw [stripAnsi_id_of_clean _ hclean, escapeControls_id_of_clean _ hclean,
    truncateLog, if_neg (Nat.not_lt.mpr hlen)]
